import Mathlib

/-!
Shallow embedding of `tapik.py` (thezakman/tapik): an API-key probing tool.
Strings are modelled as `List Char`; Python `str.upper`/`str.lower` as
ASCII case maps; Python substring containment (`in`), `str.split`,
`str.strip` and `int()` are modelled below.  Real time (Python floats from
`time.time()`) is modelled by `ℚ`.  The external HTTP transport
(`requests`) is out of scope per the spec; a probe receives an oracle
`http : Str → PyResponse` giving the response for a requested URL, and the
result of `response.json()` is carried as an abstract field of the
response record.
-/

abbrev Str := List Char

/-- ASCII uppercase of one character, the effect of Python `str.upper` on
ASCII text (non-ASCII characters are left unchanged in this model). -/
def asciiUpperChar (c : Char) : Char :=
  if ('a' ≤ c ∧ c ≤ 'z') then Char.ofNat (c.toNat - 32) else c

/-- ASCII lowercase of one character, the effect of Python `str.lower` on
ASCII text (non-ASCII characters are left unchanged in this model). -/
def asciiLowerChar (c : Char) : Char :=
  if ('A' ≤ c ∧ c ≤ 'Z') then Char.ofNat (c.toNat + 32) else c

/-- Model of Python `s.upper()` on ASCII text. -/
def pyUpper (s : Str) : Str := s.map asciiUpperChar

/-- Model of Python `s.lower()` on ASCII text. -/
def pyLower (s : Str) : Str := s.map asciiLowerChar

/-- Model of Python substring containment `needle in hay`. -/
def containsSub (needle : Str) : Str → Bool
  | [] => needle.isEmpty
  | c :: rest => needle.isPrefixOf (c :: rest) || containsSub needle rest

/-- Model of Python `s.split(sep)` for a one-character separator: splitting
the empty string gives `[""]`, and empty fields are kept. -/
def pySplit (sep : Char) : Str → List Str
  | [] => [[]]
  | c :: rest =>
    let r := pySplit sep rest
    if c = sep then [] :: r
    else
      match r with
      | [] => [[c]]
      | h :: t => (c :: h) :: t

/-- Characters stripped by Python `str.strip()`. -/
def pyWhitespace (c : Char) : Bool :=
  c = ' ' || c = Char.ofNat 9 || c = Char.ofNat 10 || c = Char.ofNat 13 ||
    c = Char.ofNat 11 || c = Char.ofNat 12

/-- Model of Python `s.strip()`. -/
def pyStrip (s : Str) : Str :=
  ((s.dropWhile pyWhitespace).reverse.dropWhile pyWhitespace).reverse

/-- Digit-run parser for Python `int()`: digits with single underscores
allowed between digits. Accumulates onto `acc`. -/
def pyDigits : ℕ → Str → Option ℕ
  | acc, [] => some acc
  | acc, [c] => if c.isDigit then some (10 * acc + (c.toNat - 48)) else none
  | acc, c :: d :: rest =>
    if c.isDigit then pyDigits (10 * acc + (c.toNat - 48)) (d :: rest)
    else if c = '_' then
      if d.isDigit then pyDigits acc (d :: rest) else none
    else none

/-- Model of Python `int(s)` for base-10 text: strip whitespace, optional
single sign, then a nonempty digit run (underscores allowed between
digits); any other shape raises `ValueError`, modelled as `none`. -/
def pyInt (s : Str) : Option ℤ :=
  match pyStrip s with
  | [] => none
  | c :: rest =>
    if c = '+' then
      match rest with
      | [] => none
      | d :: ds => if d.isDigit then (pyDigits (d.toNat - 48) ds).map (fun n => (n : ℤ)) else none
    else if c = '-' then
      match rest with
      | [] => none
      | d :: ds => if d.isDigit then (pyDigits (d.toNat - 48) ds).map (fun n => -(n : ℤ)) else none
    else if c.isDigit then (pyDigits (c.toNat - 48) rest).map (fun n => (n : ℤ))
    else none

/-- First-match lookup in a Python `dict` modelled as an association list
(Python dict keys are unique, so first match is the match). -/
def dictGet {α β : Type} [DecidableEq α] (k : α) : List (α × β) → Option β
  | [] => none
  | (k2, v) :: rest => if k2 = k then some v else dictGet k rest

/-- Python `d[k] = v` on a dict modelled as an association list: update in
place when the key is present (insertion order kept), else append. -/
def dictSet {α β : Type} [DecidableEq α] (d : List (α × β)) (k : α) (v : β) : List (α × β) :=
  if (dictGet k d).isSome then d.map (fun p => if p.1 = k then (k, v) else p) else d ++ [(k, v)]

/-- Ordered insertion used to model Python `sorted`. -/
def insSorted (n : ℤ) : List ℤ → List ℤ
  | [] => [n]
  | m :: rest => if n ≤ m then n :: m :: rest else m :: insSorted n rest

/-- Model of Python `sorted` on a list of integers (insertion sort). -/
def pySorted (l : List ℤ) : List ℤ := l.foldr insSorted []

/-- Adding an element to a Python `set` modelled as a duplicate-free list:
no-op when already present. -/
def pySetAdd (acc : List ℤ) (n : ℤ) : List ℤ :=
  if n ∈ acc then acc else acc ++ [n]

/-- Model of Python `range(s, e + 1)` as a list of integers. -/
def pyRangeIncl (s e : ℤ) : List ℤ :=
  (List.range' 0 (e + 1 - s).toNat).map (fun i => s + (i : ℤ))

/-- The string constant `"<html>"` from `process_response`. -/
def htmlTagStr : Str := "<html>".toList

/-- The anti-abuse page marker from `process_response`; Python source
writes it with an apostrophe, built here via `Char.ofNat 39`. -/
def blockedPageStr : Str := "We".toList ++ [Char.ofNat 39] ++ "re sorry...".toList

def adminOnlyStr : Str := "ADMIN_ONLY_OPERATION".toList

def unauthenticatedStr : Str := "UNAUTHENTICATED".toList

def permissionDeniedStr : Str := "PERMISSION_DENIED".toList

def invalidArgumentStr : Str := "INVALID_ARGUMENT".toList

def requestDeniedStr : Str := "REQUEST_DENIED".toList

def rejectedStr : Str := "REJECTED".toList

def blockedStr : Str := "BLOCKED".toList

def badRequestStr : Str := "BAD REQUEST".toList

def insufficientFilePermsStr : Str := "INSUFFICIENTFILEPERMISSIONS".toList

def workedStr : Str := "WORKED".toList

def authenticationLit : Str := "authentication".toList

def requiredLit : Str := "required".toList

def firstPartyLit : Str := "configured for first-party".toList

/-- The local `error_messages` list inside `process_response`
(tapik.py lines 171-172), in its source order: `ADMIN_ONLY_OPERATION`
comes first. -/
def error_messages : List Str :=
  [adminOnlyStr, unauthenticatedStr, permissionDeniedStr, invalidArgumentStr,
   requestDeniedStr, rejectedStr, blockedStr, badRequestStr, insufficientFilePermsStr]

/-- `ApiTester.ERROR_MESSAGES` (tapik.py lines 66-76), in its source
order: `ADMIN_ONLY_OPERATION` comes last.  The module-level orchestrator
tests membership (not substrings) against this list. -/
def ApiTester.ERROR_MESSAGES : List Str :=
  [unauthenticatedStr, permissionDeniedStr, invalidArgumentStr, requestDeniedStr,
   rejectedStr, blockedStr, badRequestStr, insufficientFilePermsStr, adminOnlyStr]

/-- A completed HTTP response as the probes see it.  `text`, `status_code`
and `url` mirror the `requests` response fields.  `contentType` is
`headers` at key `Content-Type` (`none` models a missing header, where the
Python subscript raises `KeyError`).  `jsonErrMsg` abstracts the external
`response.json()` call: it is `some m` when the body parses as JSON
carrying an `error` object with a `message` field `m`, and `none` when
parsing fails or those fields are absent (the `except: pass` path). -/
structure PyResponse where
  status_code : ℕ
  text : Str
  jsonErrMsg : Option Str
  contentType : Option Str
  url : Str
deriving DecidableEq

/-- `process_response` (tapik.py lines 165-195): anti-abuse page check,
then a first-match scan of `error_messages` over the uppercased body, then
the JSON error probe for status ≥ 400, else the body (verbose) or
`"WORKED"`. -/
def process_response (response : PyResponse) (verbose : Bool) : Str :=
  if containsSub htmlTagStr response.text && containsSub blockedPageStr response.text then
    blockedStr
  else
    match List.find? (fun m => containsSub m (pyUpper response.text)) error_messages with
    | some m => m
    | none =>
      if 400 ≤ response.status_code then
        match response.jsonErrMsg with
        | some msg =>
          if containsSub authenticationLit (pyLower msg) ||
              containsSub requiredLit (pyLower msg) ||
              containsSub firstPartyLit (pyLower msg) then
            permissionDeniedStr
          else if verbose then response.text else workedStr
        | none => if verbose then response.text else workedStr
      else if verbose then response.text else workedStr

/-- The pruning step of `RateLimiter.wait` (tapik.py line 55):
`self.timestamps = [t for t in self.timestamps if now - t <= self.period]`. -/
def RateLimiter.prune (period : ℚ) (timestamps : List ℚ) (now : ℚ) : List ℚ :=
  timestamps.filter (fun t => decide (now - t ≤ period))

/-- `RateLimiter.wait` (tapik.py lines 52-62) as a pure step on the state
`timestamps` at time `now`.  Returns the slept duration and the new
timestamp list; `none` models the `IndexError` of `self.timestamps[0]`
when the pruned list is empty yet its length reaches `calls` (only
possible for `calls = 0`). -/
def RateLimiter.wait (calls : ℕ) (period : ℚ) (timestamps : List ℚ) (now : ℚ) :
    Option (ℚ × List ℚ) :=
  let pruned := RateLimiter.prune period timestamps now
  if calls ≤ pruned.length then
    match pruned with
    | [] => none
    | t0 :: rest =>
      let sleep_time := t0 + period - now
      some (if 0 < sleep_time then sleep_time else 0, (t0 :: rest) ++ [now])
  else
    some (0, pruned ++ [now])

/-- Number of recorded timestamps strictly inside the trailing window of
length `period` at time `T` (spec-side notion used to state the rate-limit
contract). -/
def windowCountStrict (l : List ℚ) (T period : ℚ) : ℕ :=
  (l.filter (fun t => decide (T - t < period))).length

/-- URL stem of the StaticMap probe (tapik.py line 245); the key is
appended at the end. -/
def staticmapStem : Str :=
  "https://maps.googleapis.com/maps/api/staticmap?center=45%2C10&zoom=7&size=400x400&key=".toList

/-- URL stem of the StreetView probe (tapik.py line 255). -/
def streetviewStem : Str :=
  "https://maps.googleapis.com/maps/api/streetview?size=400x400&location=40.720032,-73.988354&fov=90&heading=235&pitch=10&key=".toList

def imageUrlTag : Str := "[!] Image URL: ".toList

def imageSlashStr : Str := "image/".toList

def mapsHostStr : Str := "https://maps.googleapis.com/".toList

/-- `test_google_maps_api_Staticmap` (tapik.py lines 243-251), with the
HTTP transport supplied as an oracle from requested URL to response.
`none` models the `KeyError` of a missing `Content-Type` header. -/
def test_google_maps_api_Staticmap (http : Str → PyResponse) (api_key : Str) (verbose : Bool) :
    Option Str :=
  let url := staticmapStem ++ api_key
  let response := http url
  match response.contentType with
  | none => none
  | some ct =>
    if imageSlashStr.isPrefixOf ct then
      if verbose then some (imageUrlTag ++ response.url)
      else some (process_response response verbose)
    else some (process_response response verbose)

/-- `test_google_maps_api_Streetview` (tapik.py lines 253-261), same shape
as the StaticMap probe. -/
def test_google_maps_api_Streetview (http : Str → PyResponse) (api_key : Str) (verbose : Bool) :
    Option Str :=
  let url := streetviewStem ++ api_key
  let response := http url
  match response.contentType with
  | none => none
  | some ct =>
    if imageSlashStr.isPrefixOf ct then
      if verbose then some (imageUrlTag ++ response.url)
      else some (process_response response verbose)
    else some (process_response response verbose)

/-- Tags naming the 44 probe functions of the catalog. -/
inductive ProbeFn
  | geocode | placesNearby | placeDetails | placesPhotos | findPlaceFromText
  | autocomplete | staticmap | streetview | directions | distancematrix
  | elevation | timezone | geolocate | nearestRoads | snapToRoads | speedLimits
  | naturalLanguage | naturalLanguageSentiment | vision | textToSpeech
  | speechToText | videoIntelligence | documentAi | translate | cloudTranslation
  | customSearch | books | youtube | consumerSearch | factCheck | pagespeed
  | safeBrowsing | cloudStorage | bigquery | datastore | drive | sheets
  | calendar | tasks | people | blogger | civicInformation | fonts | firebaseAuth
deriving DecidableEq

/-- The `api_functions` dict of `get_api_function_by_number`
(tapik.py lines 627-691): numeric id to (display name, probe function). -/
def api_functions : List (ℤ × (Str × ProbeFn)) :=
  [(1, ("Google Maps API - Geocode".toList, ProbeFn.geocode)),
   (2, ("Google Maps API - Places Nearby".toList, ProbeFn.placesNearby)),
   (3, ("Google Maps API - Place Details".toList, ProbeFn.placeDetails)),
   (4, ("Google Maps API - Places Photos".toList, ProbeFn.placesPhotos)),
   (5, ("Google Maps API - Find Place From Text".toList, ProbeFn.findPlaceFromText)),
   (6, ("Google Maps API - Autocomplete".toList, ProbeFn.autocomplete)),
   (7, ("Google Maps API - StaticMap".toList, ProbeFn.staticmap)),
   (8, ("Google Maps API - StreetView".toList, ProbeFn.streetview)),
   (9, ("Google Maps API - Directions".toList, ProbeFn.directions)),
   (10, ("Google Maps API - Distance Matrix".toList, ProbeFn.distancematrix)),
   (11, ("Google Maps API - Elevation".toList, ProbeFn.elevation)),
   (12, ("Google Maps API - Timezone".toList, ProbeFn.timezone)),
   (13, ("Google Maps API - Geolocation".toList, ProbeFn.geolocate)),
   (14, ("Google Maps API - Nearest Roads".toList, ProbeFn.nearestRoads)),
   (15, ("Google Maps API - Snap To Roads".toList, ProbeFn.snapToRoads)),
   (16, ("Google Maps API - Speed Limits".toList, ProbeFn.speedLimits)),
   (17, ("Google Cloud Natural Language API".toList, ProbeFn.naturalLanguage)),
   (18, ("Google Natural Language Sentiment API".toList, ProbeFn.naturalLanguageSentiment)),
   (19, ("Google Vision API".toList, ProbeFn.vision)),
   (20, ("Google Cloud Text-to-Speech API".toList, ProbeFn.textToSpeech)),
   (21, ("Google Cloud Speech-to-Text API".toList, ProbeFn.speechToText)),
   (22, ("Google Cloud Video Intelligence API".toList, ProbeFn.videoIntelligence)),
   (23, ("Google Cloud Document AI API".toList, ProbeFn.documentAi)),
   (24, ("Google Translate API".toList, ProbeFn.translate)),
   (25, ("Google Cloud Translation API".toList, ProbeFn.cloudTranslation)),
   (26, ("Google Custom Search API".toList, ProbeFn.customSearch)),
   (27, ("Google Books API".toList, ProbeFn.books)),
   (28, ("Google YouTube API".toList, ProbeFn.youtube)),
   (29, ("Google Consumer Search".toList, ProbeFn.consumerSearch)),
   (30, ("Google Fact Check API".toList, ProbeFn.factCheck)),
   (31, ("Google PageSpeed Insights API".toList, ProbeFn.pagespeed)),
   (32, ("Google Safe Browsing API".toList, ProbeFn.safeBrowsing)),
   (33, ("Google Cloud Storage API".toList, ProbeFn.cloudStorage)),
   (34, ("Google BigQuery API".toList, ProbeFn.bigquery)),
   (35, ("Google Cloud Datastore API".toList, ProbeFn.datastore)),
   (36, ("Google Drive API".toList, ProbeFn.drive)),
   (37, ("Google Sheets API".toList, ProbeFn.sheets)),
   (38, ("Google Calendar API".toList, ProbeFn.calendar)),
   (39, ("Google Tasks API".toList, ProbeFn.tasks)),
   (40, ("Google People API".toList, ProbeFn.people)),
   (41, ("Google Blogger API".toList, ProbeFn.blogger)),
   (42, ("Google Civic API".toList, ProbeFn.civicInformation)),
   (43, ("Google WebFonts API".toList, ProbeFn.fonts)),
   (44, ("Firebase Authentication API".toList, ProbeFn.firebaseAuth))]

/-- `get_api_function_by_number` (tapik.py lines 625-692): Python
`api_functions.get(number)`. -/
def get_api_function_by_number (number : ℤ) : Option (Str × ProbeFn) :=
  dictGet number api_functions

/-- `list(range(1, 45))`: the full id range returned for an absent or
empty selection (tapik.py line 613). -/
def fullApiRange : List ℤ := (List.range' 1 44).map (fun k => (k : ℤ))

/-- Denotation of one comma-separated token of the selection grammar, the
body of the loop in `parse_api_selection` (tapik.py lines 616-621): a
hyphenated token becomes the inclusive range (exactly two hyphen-parts,
both parsed by `int()`), any other token is a single `int()`; `none`
models the `ValueError` raised by `int()` or by unpacking. -/
def selTokenVals (part : Str) : Option (List ℤ) :=
  if ('-') ∈ part then
    match pySplit '-' part with
    | [a, b] =>
      match pyInt a, pyInt b with
      | some s, some e => some (pyRangeIncl s e)
      | _, _ => none
    | _ => none
  else (pyInt part).map (fun n => [n])

/-- The accumulation loop of `parse_api_selection`: a Python `set` built
over the comma-separated parts, aborting with `ValueError` on a bad
token. -/
def selLoop (acc : List ℤ) : List Str → Except Unit (List ℤ)
  | [] => .ok acc
  | p :: rest =>
    match selTokenVals p with
    | none => .error ()
    | some vs => selLoop (vs.foldl pySetAdd acc) rest

/-- `parse_api_selection` (tapik.py lines 603-622).  `none` models the
Python default `None`; a falsy selection (absent or empty) yields the full
range, otherwise the parts are accumulated into a set and returned as
`sorted(list(result))`.  `Except.error` models an uncaught `ValueError`. -/
def parse_api_selection (api_selection : Option Str) : Except Unit (List ℤ) :=
  match api_selection with
  | none => .ok fullApiRange
  | some s =>
    if s = [] then .ok fullApiRange
    else
      match selLoop [] (pySplit ',' s) with
      | .error e => .error e
      | .ok acc => .ok (pySorted acc)

deriving instance DecidableEq for Except

/-- Events of one orchestration run: a call to the rate limiter's `wait`,
or the invocation of the probe for `(key, api_num)`. -/
inductive Event
  | wait : Event
  | probe (key : Str) (api_num : ℤ) : Event
deriving DecidableEq

/-- Result of one probe invocation `test_function(key, verbose)`: a
returned string, or a raised exception (network failures and the like),
which the orchestrator catches and logs. -/
inductive ProbeOutcome
  | ok (result : Str)
  | exn
deriving DecidableEq

/-- The inner loop of the module-level `test_api_keys`
(tapik.py lines 751-775) over the selected api numbers, for one key.
`outcome` is the oracle giving each probe invocation's result; `acc` is
the per-key result dict `api_results[key]` and `ev` the event trace so
far.  An id missing from the catalog is skipped silently; a raised probe
exception is caught and recorded nowhere; a result belonging to
`ApiTester.ERROR_MESSAGES` is only printed, a success is stored under the
display name. -/
def run_selected (outcome : Str → Bool → ℤ → ProbeOutcome) (verbose : Bool) (key : Str)
    (acc : List (Str × Str)) (ev : List Event) :
    List ℤ → List (Str × Str) × List Event
  | [] => (acc, ev)
  | api_num :: rest =>
    match get_api_function_by_number api_num with
    | none => run_selected outcome verbose key acc ev rest
    | some (api_name, _f) =>
      let ev2 := ev ++ [Event.probe key api_num]
      match outcome key verbose api_num with
      | .exn => run_selected outcome verbose key acc ev2 rest
      | .ok result =>
        if result ∈ ApiTester.ERROR_MESSAGES then
          run_selected outcome verbose key acc ev2 rest
        else
          run_selected outcome verbose key (dictSet acc api_name result) ev2 rest

/-- The outer loop of the module-level `test_api_keys` over keys: for each
key, `api_results[key] = {}` and then the inner loop over the selected
ids. -/
def run_keys (outcome : Str → Bool → ℤ → ProbeOutcome) (verbose : Bool) (selected : List ℤ)
    (results : List (Str × List (Str × Str))) (ev : List Event) :
    List Str → List (Str × List (Str × Str)) × List Event
  | [] => (results, ev)
  | key :: rest =>
    let results1 := dictSet results key []
    let inner := run_selected outcome verbose key [] ev selected
    run_keys outcome verbose selected (dictSet results1 key inner.1) inner.2 rest

/-- The module-level `test_api_keys` (tapik.py lines 725-781), the
orchestrator `main` invokes: parse the selection (uncaught `ValueError`
aborts everything), then the two nested loops.  Returns the result dict
together with the run's event trace.  Writing the output file, when
configured, applies `save_results_to_file` to the first component. -/
def test_api_keys (outcome : Str → Bool → ℤ → ProbeOutcome) (api_keys : List Str)
    (verbose : Bool) (api_selection : Option Str) :
    Except Unit (List (Str × List (Str × Str)) × List Event) :=
  match parse_api_selection api_selection with
  | .error e => .error e
  | .ok selected => .ok (run_keys outcome verbose selected [] [] api_keys)

def successStr : Str := "Success".toList

/-- `save_results_to_file` (tapik.py lines 783-804): the serialized
`output_data` maps every key's entry to the same display names, each
valued `"Success"`. -/
def save_results_to_file (api_results : List (Str × List (Str × Str))) :
    List (Str × List (Str × Str)) :=
  api_results.map (fun p => (p.1, p.2.map (fun q => (q.1, successStr))))

/-- The event trace of a finished run; an aborted run has issued no
probes. -/
def traceOf (r : Except Unit (List (Str × List (Str × Str)) × List Event)) : List Event :=
  match r with
  | .error _ => []
  | .ok (_, tr) => tr

/-- The serialized output of a finished run (what `--output` writes);
`none` when the run aborted before reaching the save. -/
def savedOf (r : Except Unit (List (Str × List (Str × Str)) × List Event)) :
    Option (List (Str × List (Str × Str))) :=
  match r with
  | .error _ => none
  | .ok (res, _) => some (save_results_to_file res)

/-- How `main` ends (tapik.py lines 806-835): normal completion, or a
`KeyboardInterrupt` caught by the one `except` clause. -/
inductive MainOutcome
  | completed
  | interrupted
deriving DecidableEq

/-- The explicit process exit code of `main`: normal completion falls off
the end of `main` (exit status 0); the `KeyboardInterrupt` handler calls
`exit(0)` (tapik.py line 835). -/
def main_exit_code : MainOutcome → ℕ
  | .completed => 0
  | .interrupted => 0

/-- The notice printed by the `KeyboardInterrupt` handler
(tapik.py line 834): a leading newline then the one-line text. -/
def interruptNotice : Str := Char.ofNat 10 :: "[!] Exiting...".toList

/-- Spec-side: no marker strictly earlier than `m` in the scan order of
`error_messages` occurs in `txt`. -/
def noEarlierMatch (txt m : Str) : Bool :=
  (error_messages.takeWhile (fun x => decide (x ≠ m))).all (fun x => ! containsSub x txt)

/-- Spec-side closed form of the duration `RateLimiter.wait` sleeps. -/
def RateLimiter.sleepSpec (calls : ℕ) (period : ℚ) (timestamps : List ℚ) (now : ℚ) : ℚ :=
  let pruned := RateLimiter.prune period timestamps now
  if calls ≤ pruned.length then max (pruned.headI + period - now) 0 else 0

/-- Spec-side: the probe-invocation events one key contributes, one per
selected id that resolves in the catalog. -/
def specProbeEvents (key : Str) (selected : List ℤ) : List Event :=
  selected.filterMap (fun n =>
    if (get_api_function_by_number n).isSome then some (Event.probe key n) else none)

/-- Spec-side: the per-key result entries the orchestration is expected to
record, in selection order: display name and payload of each probe that
resolved, did not raise, and returned a non-denial result. -/
def specEntry (outcome : Str → Bool → ℤ → ProbeOutcome) (verbose : Bool)
    (selected : List ℤ) (key : Str) : List (Str × Str) :=
  selected.filterMap (fun n =>
    match get_api_function_by_number n with
    | none => none
    | some (api_name, _f) =>
      match outcome key verbose n with
      | .exn => none
      | .ok result =>
        if result ∈ ApiTester.ERROR_MESSAGES then none else some (api_name, result))

/-- The display names that a selection resolves to, in order. -/
def namesOf (selected : List ℤ) : List Str :=
  selected.filterMap (fun n => (get_api_function_by_number n).map Prod.fst)

theorem dictGet_mem {α β : Type} [DecidableEq α] {k : α} {v : β} :
    ∀ {d : List (α × β)}, dictGet k d = some v → (k, v) ∈ d
  | [], h => by simp [dictGet] at h
  | (k2, v2) :: rest, h => by
    by_cases hk : k2 = k
    · subst hk
      simp [dictGet] at h
      simp [h]
    · simp [dictGet, hk] at h
      exact List.mem_cons_of_mem _ (dictGet_mem h)

theorem dictGet_isSome_iff {α β : Type} [DecidableEq α] {k : α} :
    ∀ {d : List (α × β)}, (dictGet k d).isSome = true ↔ k ∈ d.map Prod.fst
  | [] => by simp [dictGet]
  | (k2, v2) :: rest => by
    by_cases hk : k2 = k
    · subst hk; simp [dictGet]
    · have h1 : dictGet k ((k2, v2) :: rest) = dictGet k rest := by simp [dictGet, hk]
      rw [h1, @dictGet_isSome_iff α β _ k rest]
      simp [Ne.symm hk]

theorem dictGet_eq_none_iff {α β : Type} [DecidableEq α] {k : α} {d : List (α × β)} :
    dictGet k d = none ↔ k ∉ d.map Prod.fst := by
  rw [← dictGet_isSome_iff]
  cases h : dictGet k d <;> simp [h]

theorem dictGet_append_left_none {α β : Type} [DecidableEq α] {k : α} {d e : List (α × β)}
    (h : dictGet k d = none) : dictGet k (d ++ e) = dictGet k e := by
  induction d with
  | nil => simp
  | cons p rest ih =>
    obtain ⟨k2, v2⟩ := p
    by_cases hk : k2 = k
    · subst hk; simp [dictGet] at h
    · simp [dictGet, hk] at h ⊢
      exact ih h

theorem dictSet_of_not_mem {α β : Type} [DecidableEq α] {k : α} {d : List (α × β)} (v : β)
    (h : dictGet k d = none) : dictSet d k v = d ++ [(k, v)] := by
  simp [dictSet, h]

theorem dictSet_append_singleton {α β : Type} [DecidableEq α] {k : α} {d : List (α × β)}
    {x : β} (v : β) (h : dictGet k d = none) :
    dictSet (d ++ [(k, x)]) k v = d ++ [(k, v)] := by
  have hsome : (dictGet k (d ++ [(k, x)])).isSome = true := by
    rw [dictGet_append_left_none h]
    simp [dictGet]
  have hmap : ∀ p ∈ d, (fun p : α × β => if p.1 = k then (k, v) else p) p = p := by
    intro p hp
    have : p.1 ≠ k := by
      intro hk
      rw [dictGet_eq_none_iff] at h
      exact h (List.mem_map.mpr ⟨p, hp, hk⟩)
    simp [this]
  simp only [dictSet, hsome, if_true, List.map_append]
  rw [List.map_congr_left hmap]
  simp

theorem find?_first {α : Type} [DecidableEq α] (p : α → Bool) :
    ∀ (l : List α) (m : α), l.find? p = some m →
      m ∈ l ∧ p m = true ∧ ((l.takeWhile (fun x => decide (x ≠ m))).all (fun x => ! p x)) = true
  | [], m, h => by simp [List.find?] at h
  | a :: l, m, h => by
    cases hp : p a with
    | true =>
      rw [List.find?_cons_of_pos _ hp] at h
      obtain rfl : a = m := by simpa using h
      refine ⟨List.mem_cons_self _ _, hp, ?_⟩
      have h1 : List.takeWhile (fun x => decide (x ≠ a)) (a :: l) = [] := by
        simp [List.takeWhile_cons]
      rw [h1]
      rfl
    | false =>
      rw [List.find?_cons_of_neg _ (by simp [hp])] at h
      obtain ⟨hm, hpm, hall⟩ := find?_first p l m h
      have hne : a ≠ m := by
        intro hk; rw [hk] at hp; rw [hpm] at hp; cases hp
      refine ⟨List.mem_cons_of_mem _ hm, hpm, ?_⟩
      have h1 : List.takeWhile (fun x => decide (x ≠ m)) (a :: l) =
          a :: List.takeWhile (fun x => decide (x ≠ m)) l := by
        simp [List.takeWhile_cons, hne]
      rw [h1, List.all_cons, hp]
      simpa using hall

theorem insSorted_mem {m n : ℤ} : ∀ {l : List ℤ}, m ∈ insSorted n l ↔ m = n ∨ m ∈ l
  | [] => by simp [insSorted]
  | a :: l => by
    by_cases h : n ≤ a
    · simp [insSorted, h]
    · simp only [insSorted, h, if_false, List.mem_cons, @insSorted_mem m n l]
      tauto

theorem insSorted_sorted {n : ℤ} :
    ∀ {l : List ℤ}, l.Sorted (fun a b => a ≤ b) → (insSorted n l).Sorted (fun a b => a ≤ b)
  | [], _ => by simp [insSorted]
  | a :: l, h => by
    rw [List.sorted_cons] at h
    by_cases hn : n ≤ a
    · rw [show insSorted n (a :: l) = n :: a :: l from by simp [insSorted, hn]]
      rw [List.sorted_cons]
      refine ⟨?_, List.sorted_cons.mpr h⟩
      intro b hb
      rcases List.mem_cons.mp hb with rfl | hb
      · exact hn
      · exact le_trans hn (h.1 b hb)
    · rw [show insSorted n (a :: l) = a :: insSorted n l from by simp [insSorted, hn]]
      rw [List.sorted_cons]
      refine ⟨?_, insSorted_sorted h.2⟩
      intro b hb
      rcases insSorted_mem.mp hb with rfl | hb
      · exact le_of_not_le hn
      · exact h.1 b hb

theorem pySorted_sorted : ∀ (l : List ℤ), (pySorted l).Sorted (fun a b => a ≤ b)
  | [] => by simp [pySorted]
  | a :: l => by
    rw [show pySorted (a :: l) = insSorted a (pySorted l) from rfl]
    exact insSorted_sorted (pySorted_sorted l)

theorem pySorted_mem {m : ℤ} : ∀ {l : List ℤ}, m ∈ pySorted l ↔ m ∈ l
  | [] => by simp [pySorted]
  | a :: l => by
    rw [show pySorted (a :: l) = insSorted a (pySorted l) from rfl]
    rw [insSorted_mem]
    simp [@pySorted_mem m l]

theorem insSorted_nodup {a : ℤ} :
    ∀ {l : List ℤ}, a ∉ l → l.Nodup → (insSorted a l).Nodup
  | [], _, _ => by simp [insSorted]
  | b :: t, hna, hd => by
    by_cases hab : a ≤ b
    · rw [show insSorted a (b :: t) = a :: b :: t from by simp [insSorted, hab]]
      exact List.nodup_cons.mpr ⟨hna, hd⟩
    · rw [show insSorted a (b :: t) = b :: insSorted a t from by simp [insSorted, hab]]
      rw [List.nodup_cons] at hd ⊢
      refine ⟨?_, insSorted_nodup (fun hc => hna (List.mem_cons_of_mem _ hc)) hd.2⟩
      intro hc
      rcases insSorted_mem.mp hc with rfl | hc
      · exact hna (List.mem_cons_self _ _)
      · exact hd.1 hc

theorem pySorted_nodup : ∀ {l : List ℤ}, l.Nodup → (pySorted l).Nodup
  | [], _ => by simp [pySorted]
  | a :: l, h => by
    rw [List.nodup_cons] at h
    rw [show pySorted (a :: l) = insSorted a (pySorted l) from rfl]
    exact insSorted_nodup (fun hc => h.1 (pySorted_mem.mp hc)) (pySorted_nodup h.2)

theorem sorted_lt_of_sorted_le_nodup {l : List ℤ}
    (hs : l.Sorted (fun a b => a ≤ b)) (hn : l.Nodup) : l.Sorted (fun a b => a < b) :=
  (List.Pairwise.and hs hn).imp (fun h => lt_of_le_of_ne h.1 h.2)

theorem pySetAdd_mem {m : ℤ} {acc : List ℤ} {n : ℤ} :
    m ∈ pySetAdd acc n ↔ m ∈ acc ∨ m = n := by
  by_cases h : n ∈ acc
  · simp only [pySetAdd, h, if_true]
    constructor
    · exact Or.inl
    · rintro (hm | rfl)
      · exact hm
      · exact h
  · simp [pySetAdd, h]

theorem pySetAdd_nodup {acc : List ℤ} {n : ℤ} (h : acc.Nodup) : (pySetAdd acc n).Nodup := by
  by_cases hn : n ∈ acc
  · simpa [pySetAdd, hn] using h
  · simp only [pySetAdd, hn, if_false]
    rw [List.nodup_append]
    exact ⟨h, List.nodup_singleton n, by simpa using fun hc => hn hc⟩

theorem foldl_pySetAdd_mem {m : ℤ} :
    ∀ (vs : List ℤ) (acc : List ℤ), m ∈ vs.foldl pySetAdd acc ↔ m ∈ acc ∨ m ∈ vs
  | [], acc => by simp
  | v :: vs, acc => by
    rw [List.foldl_cons, foldl_pySetAdd_mem vs, pySetAdd_mem]
    simp only [List.mem_cons]
    tauto

theorem foldl_pySetAdd_nodup :
    ∀ (vs : List ℤ) {acc : List ℤ}, acc.Nodup → (vs.foldl pySetAdd acc).Nodup
  | [], _, h => h
  | _ :: vs, _, h => foldl_pySetAdd_nodup vs (pySetAdd_nodup h)

theorem selLoop_nodup :
    ∀ (ps : List Str) {acc : List ℤ} {l : List ℤ}, acc.Nodup → selLoop acc ps = .ok l → l.Nodup
  | [], acc, l, h, heq => by
    simp only [selLoop] at heq
    cases heq
    exact h
  | p :: ps, acc, l, h, heq => by
    simp only [selLoop] at heq
    cases hv : selTokenVals p with
    | none => rw [hv] at heq; cases heq
    | some vs =>
      rw [hv] at heq
      exact selLoop_nodup ps (foldl_pySetAdd_nodup vs h) heq

theorem selLoop_mem {n : ℤ} :
    ∀ (ps : List Str) {acc : List ℤ} {l : List ℤ}, selLoop acc ps = .ok l →
      (n ∈ l ↔ n ∈ acc ∨ ∃ p ∈ ps, ∃ vs, selTokenVals p = some vs ∧ n ∈ vs)
  | [], acc, l, heq => by
    simp only [selLoop] at heq
    cases heq
    simp
  | p :: ps, acc, l, heq => by
    simp only [selLoop] at heq
    cases hv : selTokenVals p with
    | none => rw [hv] at heq; cases heq
    | some vs =>
      rw [hv] at heq
      rw [selLoop_mem ps heq, foldl_pySetAdd_mem]
      constructor
      · rintro ((ha | hvs) | ⟨q, hq, ws, hws, hn⟩)
        · exact Or.inl ha
        · exact Or.inr ⟨p, List.mem_cons_self _ _, vs, hv, hvs⟩
        · exact Or.inr ⟨q, List.mem_cons_of_mem _ hq, ws, hws, hn⟩
      · rintro (ha | ⟨q, hq, ws, hws, hn⟩)
        · exact Or.inl (Or.inl ha)
        · rcases List.mem_cons.mp hq with rfl | hq
          · rw [hv] at hws
            cases hws
            exact Or.inl (Or.inr hn)
          · exact Or.inr ⟨q, hq, ws, hws, hn⟩

theorem selLoop_err :
    ∀ (ps : List Str) (acc : List ℤ) {p : Str}, p ∈ ps → selTokenVals p = none →
      selLoop acc ps = .error ()
  | [], _, _, hp, _ => absurd hp (List.not_mem_nil _)
  | q :: ps, acc, p, hp, hv => by
    simp only [selLoop]
    cases hq : selTokenVals q with
    | none => rfl
    | some vs =>
      rcases List.mem_cons.mp hp with rfl | hp
      · rw [hq] at hv; cases hv
      · exact selLoop_err ps _ hp hv

theorem fullApiRange_nodup : fullApiRange.Nodup := by decide

theorem parse_ok_nodup {s : Option Str} {l : List ℤ}
    (h : parse_api_selection s = .ok l) : l.Nodup := by
  cases s with
  | none =>
    simp only [parse_api_selection] at h
    cases h
    exact fullApiRange_nodup
  | some t =>
    simp only [parse_api_selection] at h
    by_cases ht : t = []
    · rw [if_pos ht] at h
      cases h
      exact fullApiRange_nodup
    · rw [if_neg ht] at h
      cases heq : selLoop [] (pySplit ',' t) with
      | error e => rw [heq] at h; cases h
      | ok acc =>
        rw [heq] at h
        cases h
        exact pySorted_nodup (selLoop_nodup _ List.nodup_nil heq)

theorem api_functions_names_nodup : (api_functions.map (fun p => p.2.1)).Nodup := by decide

theorem api_functions_keys_eq : api_functions.map Prod.fst = fullApiRange := by decide

theorem get_api_name_inj {n1 n2 : ℤ} {nm : Str} {f1 f2 : ProbeFn}
    (h1 : get_api_function_by_number n1 = some (nm, f1))
    (h2 : get_api_function_by_number n2 = some (nm, f2)) : n1 = n2 := by
  have m1 : (n1, (nm, f1)) ∈ api_functions := dictGet_mem h1
  have m2 : (n2, (nm, f2)) ∈ api_functions := dictGet_mem h2
  have := List.inj_on_of_nodup_map api_functions_names_nodup m1 m2 rfl
  exact congrArg Prod.fst this

theorem namesOf_nodup {selected : List ℤ} (h : selected.Nodup) : (namesOf selected).Nodup := by
  refine List.Nodup.filterMap ?_ h
  intro a b nm ha hb
  rw [Option.mem_def] at ha hb
  cases hga : get_api_function_by_number a with
  | none => rw [hga] at ha; cases ha
  | some pa =>
    cases hgb : get_api_function_by_number b with
    | none => rw [hgb] at hb; cases hb
    | some pb =>
      rw [hga] at ha
      rw [hgb] at hb
      obtain ⟨nma, fa⟩ := pa
      obtain ⟨nmb, fb⟩ := pb
      have ha2 : nma = nm := by simpa using ha
      have hb2 : nmb = nm := by simpa using hb
      subst ha2
      subst hb2
      exact get_api_name_inj hga hgb

theorem run_selected_trace (outcome : Str → Bool → ℤ → ProbeOutcome) (verbose : Bool)
    (key : Str) :
    ∀ (sel : List ℤ) (acc : List (Str × Str)) (ev : List Event),
      (run_selected outcome verbose key acc ev sel).2 = ev ++ specProbeEvents key sel
  | [], acc, ev => by simp [run_selected, specProbeEvents]
  | n :: rest, acc, ev => by
    cases hg : get_api_function_by_number n with
    | none =>
      rw [show run_selected outcome verbose key acc ev (n :: rest) =
          run_selected outcome verbose key acc ev rest from by
        simp only [run_selected, hg]]
      rw [run_selected_trace outcome verbose key rest acc ev]
      simp [specProbeEvents, List.filterMap_cons, hg]
    | some nf =>
      obtain ⟨api_name, f⟩ := nf
      have hspec : specProbeEvents key (n :: rest) =
          Event.probe key n :: specProbeEvents key rest := by
        simp [specProbeEvents, List.filterMap_cons, hg]
      cases ho : outcome key verbose n with
      | exn =>
        rw [show run_selected outcome verbose key acc ev (n :: rest) =
            run_selected outcome verbose key acc (ev ++ [Event.probe key n]) rest from by
          simp only [run_selected, hg, ho]]
        rw [run_selected_trace outcome verbose key rest acc _, hspec]
        simp
      | ok result =>
        by_cases hr : result ∈ ApiTester.ERROR_MESSAGES
        · rw [show run_selected outcome verbose key acc ev (n :: rest) =
              run_selected outcome verbose key acc (ev ++ [Event.probe key n]) rest from by
            simp only [run_selected, hg, ho, hr, if_true]]
          rw [run_selected_trace outcome verbose key rest acc _, hspec]
          simp
        · rw [show run_selected outcome verbose key acc ev (n :: rest) =
              run_selected outcome verbose key (dictSet acc api_name result)
                (ev ++ [Event.probe key n]) rest from by
            simp only [run_selected, hg, ho, hr, if_false]]
          rw [run_selected_trace outcome verbose key rest _ _, hspec]
          simp

theorem run_selected_dict (outcome : Str → Bool → ℤ → ProbeOutcome) (verbose : Bool)
    (key : Str) :
    ∀ (sel : List ℤ) (acc : List (Str × Str)) (ev : List Event),
      (namesOf sel).Nodup → (∀ nm ∈ namesOf sel, dictGet nm acc = none) →
      (run_selected outcome verbose key acc ev sel).1 = acc ++ specEntry outcome verbose sel key
  | [], acc, ev, _, _ => by simp [run_selected, specEntry]
  | n :: rest, acc, ev, hn, hd => by
    cases hg : get_api_function_by_number n with
    | none =>
      have hnames : namesOf (n :: rest) = namesOf rest := by
        simp [namesOf, List.filterMap_cons, hg]
      rw [hnames] at hn hd
      rw [show run_selected outcome verbose key acc ev (n :: rest) =
          run_selected outcome verbose key acc ev rest from by
        simp only [run_selected, hg]]
      rw [run_selected_dict outcome verbose key rest acc ev hn hd]
      simp [specEntry, List.filterMap_cons, hg]
    | some nf =>
      obtain ⟨api_name, f⟩ := nf
      have hnames : namesOf (n :: rest) = api_name :: namesOf rest := by
        simp [namesOf, List.filterMap_cons, hg]
      rw [hnames] at hn hd
      rw [List.nodup_cons] at hn
      have hdr : ∀ nm ∈ namesOf rest, dictGet nm acc = none :=
        fun nm hm => hd nm (List.mem_cons_of_mem _ hm)
      have hda : dictGet api_name acc = none := hd api_name (List.mem_cons_self _ _)
      cases ho : outcome key verbose n with
      | exn =>
        rw [show run_selected outcome verbose key acc ev (n :: rest) =
            run_selected outcome verbose key acc (ev ++ [Event.probe key n]) rest from by
          simp only [run_selected, hg, ho]]
        rw [run_selected_dict outcome verbose key rest acc _ hn.2 hdr]
        simp [specEntry, List.filterMap_cons, hg, ho]
      | ok result =>
        by_cases hr : result ∈ ApiTester.ERROR_MESSAGES
        · rw [show run_selected outcome verbose key acc ev (n :: rest) =
              run_selected outcome verbose key acc (ev ++ [Event.probe key n]) rest from by
            simp only [run_selected, hg, ho, hr, if_true]]
          rw [run_selected_dict outcome verbose key rest acc _ hn.2 hdr]
          simp [specEntry, List.filterMap_cons, hg, ho, hr]
        · rw [show run_selected outcome verbose key acc ev (n :: rest) =
              run_selected outcome verbose key (dictSet acc api_name result)
                (ev ++ [Event.probe key n]) rest from by
            simp only [run_selected, hg, ho, hr, if_false]]
          rw [dictSet_of_not_mem result hda] at *
          have hdr2 : ∀ nm ∈ namesOf rest, dictGet nm (acc ++ [(api_name, result)]) = none := by
            intro nm hm
            rw [dictGet_append_left_none (hdr nm hm)]
            have : api_name ≠ nm := fun hc => hn.1 (hc ▸ hm)
            simp [dictGet, this]
          rw [run_selected_dict outcome verbose key rest _ _ hn.2 hdr2]
          have hspec : specEntry outcome verbose (n :: rest) key =
              (api_name, result) :: specEntry outcome verbose rest key := by
            simp [specEntry, List.filterMap_cons, hg, ho, hr]
          rw [hspec]
          simp

theorem run_keys_trace (outcome : Str → Bool → ℤ → ProbeOutcome) (verbose : Bool)
    (selected : List ℤ) :
    ∀ (keys : List Str) (results : List (Str × List (Str × Str))) (ev : List Event),
      (run_keys outcome verbose selected results ev keys).2 =
        ev ++ keys.flatMap (fun k => specProbeEvents k selected)
  | [], results, ev => by simp [run_keys]
  | key :: rest, results, ev => by
    rw [show run_keys outcome verbose selected results ev (key :: rest) =
        run_keys outcome verbose selected
          (dictSet (dictSet results key []) key
            (run_selected outcome verbose key [] ev selected).1)
          (run_selected outcome verbose key [] ev selected).2 rest from rfl]
    rw [run_keys_trace outcome verbose selected rest _ _]
    rw [run_selected_trace outcome verbose key selected [] ev]
    simp

theorem run_keys_dict (outcome : Str → Bool → ℤ → ProbeOutcome) (verbose : Bool)
    (selected : List ℤ) (hnames : (namesOf selected).Nodup) :
    ∀ (keys : List Str) (results : List (Str × List (Str × Str))) (ev : List Event),
      keys.Nodup → (∀ k ∈ keys, dictGet k results = none) →
      (run_keys outcome verbose selected results ev keys).1 =
        results ++ keys.map (fun k => (k, specEntry outcome verbose selected k))
  | [], results, ev, _, _ => by simp [run_keys]
  | key :: rest, results, ev, hk, hres => by
    rw [List.nodup_cons] at hk
    have hkey : dictGet key results = none := hres key (List.mem_cons_self _ _)
    have h1 : dictSet results key ([] : List (Str × Str)) = results ++ [(key, [])] :=
      dictSet_of_not_mem _ hkey
    have h2 : (run_selected outcome verbose key [] ev selected).1 =
        specEntry outcome verbose selected key := by
      rw [run_selected_dict outcome verbose key selected [] ev hnames
        (fun nm _ => rfl)]
      simp
    rw [show run_keys outcome verbose selected results ev (key :: rest) =
        run_keys outcome verbose selected
          (dictSet (dictSet results key []) key
            (run_selected outcome verbose key [] ev selected).1)
          (run_selected outcome verbose key [] ev selected).2 rest from rfl]
    rw [h1, h2, dictSet_append_singleton _ hkey]
    have hres2 : ∀ k ∈ rest,
        dictGet k (results ++ [(key, specEntry outcome verbose selected key)]) = none := by
      intro k hkm
      rw [dictGet_append_left_none (hres k (List.mem_cons_of_mem _ hkm))]
      have : key ≠ k := fun hc => hk.1 (hc ▸ hkm)
      simp [dictGet, this]
    rw [run_keys_dict outcome verbose selected hnames rest _ _ hk.2 hres2]
    simp

theorem wait_not_mem_specProbeEvents (key : Str) (sel : List ℤ) :
    Event.wait ∉ specProbeEvents key sel := by
  intro h
  rw [specProbeEvents, List.mem_filterMap] at h
  obtain ⟨n, _, hn⟩ := h
  by_cases hg : (get_api_function_by_number n).isSome
  · rw [if_pos hg] at hn; cases hn
  · rw [if_neg hg] at hn; cases hn

/-- Claim C8: for every valid (accepted) nonempty selection string, the
parser returns a strictly ascending, duplicate-free list whose members are
exactly the integers denoted by the comma-separated tokens (single
integers and inclusive ranges), regardless of input order or
repetition. -/
theorem tapik_C8_sorted (s : Str) (l : List ℤ) (h1 : s ≠ [])
    (h2 : parse_api_selection (some s) = .ok l) :
    List.Sorted (fun a b => a < b) l ∧ l.Nodup ∧
      (∀ n : ℤ, n ∈ l ↔ ∃ p ∈ pySplit ',' s, ∃ vs, selTokenVals p = some vs ∧ n ∈ vs) := by
  simp only [parse_api_selection, if_neg h1] at h2
  cases heq : selLoop [] (pySplit ',' s) with
  | error e => rw [heq] at h2; cases h2
  | ok acc =>
    rw [heq] at h2
    cases h2
    have hnd : acc.Nodup := selLoop_nodup _ List.nodup_nil heq
    refine ⟨sorted_lt_of_sorted_le_nodup (pySorted_sorted acc) (pySorted_nodup hnd),
      pySorted_nodup hnd, ?_⟩
    intro n
    rw [pySorted_mem, selLoop_mem _ heq]
    simp

/-- Witness for C8 on the spec's own example: parsing `"1,3,2,3-4"` gives
`[1, 2, 3, 4]`. -/
theorem tapik_C8_sorted_wit :
    ("1,3,2,3-4".toList ≠ []) ∧
    parse_api_selection (some ("1,3,2,3-4".toList)) = .ok [1, 2, 3, 4] ∧
    (List.Sorted (fun a b => a < b) [(1 : ℤ), 2, 3, 4] ∧ ([(1 : ℤ), 2, 3, 4]).Nodup ∧
      (∀ n : ℤ, n ∈ [(1 : ℤ), 2, 3, 4] ↔
        ∃ p ∈ pySplit ',' ("1,3,2,3-4".toList), ∃ vs, selTokenVals p = some vs ∧ n ∈ vs)) :=
  ⟨by decide, by rfl, tapik_C8_sorted _ _ (by decide) (by rfl)⟩

/-- Claim C9: an absent or empty selection yields exactly the full
contiguous catalog id range 1..44, ascending, and an id resolves in the
catalog if and only if it lies in that range. -/
theorem tapik_C9_full_range :
    parse_api_selection none = .ok fullApiRange ∧
    parse_api_selection (some []) = .ok fullApiRange ∧
    List.Sorted (fun a b => a < b) fullApiRange ∧
    ∀ n : ℤ, n ∈ fullApiRange ↔ (get_api_function_by_number n).isSome = true := by
  refine ⟨rfl, rfl, by decide, ?_⟩
  intro n
  rw [show get_api_function_by_number n = dictGet n api_functions from rfl,
    dictGet_isSome_iff, api_functions_keys_eq]

/-- Claim C10: a nonempty selection string with a token that is neither an
`int()`-parsable integer nor a single hyphenated integer range (a letter
token, an empty token from a doubled or trailing comma, a two-hyphen
token, ...) makes `parse_api_selection` raise `ValueError`
(`selTokenVals` is `none` exactly for such tokens); since the selection is
parsed before the loops and before any per-probe `try`, and `main` catches
only `KeyboardInterrupt`, the whole run aborts with no probe issued. -/
theorem tapik_C10_invalid_token (outcome : Str → Bool → ℤ → ProbeOutcome)
    (api_keys : List Str) (verbose : Bool) (s p : Str)
    (h1 : s ≠ []) (h2 : p ∈ pySplit ',' s) (h3 : selTokenVals p = none) :
    parse_api_selection (some s) = .error () ∧
    test_api_keys outcome api_keys verbose (some s) = .error () ∧
    traceOf (test_api_keys outcome api_keys verbose (some s)) = [] := by
  have hp : parse_api_selection (some s) = .error () := by
    simp only [parse_api_selection, if_neg h1]
    rw [selLoop_err _ _ h2 h3]
  refine ⟨hp, ?_, ?_⟩
  · simp only [test_api_keys, hp]
  · simp only [traceOf, test_api_keys, hp]

/-- Witness for C10 at the selection `"1,x"` with bad token `"x"`. -/
theorem tapik_C10_invalid_token_wit :
    ("1,x".toList ≠ []) ∧ ("x".toList) ∈ pySplit ',' ("1,x".toList) ∧
    selTokenVals ("x".toList) = none ∧
    (parse_api_selection (some ("1,x".toList)) = .error () ∧
      test_api_keys (fun _ _ _ => ProbeOutcome.ok workedStr) [("K".toList)] false
        (some ("1,x".toList)) = .error () ∧
      traceOf (test_api_keys (fun _ _ _ => ProbeOutcome.ok workedStr) [("K".toList)] false
        (some ("1,x".toList))) = []) :=
  ⟨by decide, by decide, by rfl,
    tapik_C10_invalid_token (fun _ _ _ => ProbeOutcome.ok workedStr) [("K".toList)] false
      ("1,x".toList) ("x".toList) (by decide) (by decide) (by rfl)⟩

/-- Counterexample to claim C1 as stated: in the orchestration run that
`main` performs (the module-level `test_api_keys`), one key with selection
`"1"` produces exactly one probe-invocation event and the trace contains
no rate-limiter `wait` event at all — the probe is invoked without any
preceding rate-limiter wait.  (The only code calling
`RateLimiter.wait` is the `ApiTester` class, which `main` never uses.) -/
theorem tapik_C1_cex :
    traceOf (test_api_keys (fun _ _ _ => ProbeOutcome.ok workedStr) [("AIza".toList)] false
      (some ("1".toList))) = [Event.probe ("AIza".toList) 1] ∧
    Event.wait ∉ [Event.probe ("AIza".toList) 1] := by
  constructor
  · rfl
  · decide

/-- Claim C1, amended: in the orchestration run, for every key and every
selected id that resolves in the catalog the probe is invoked — the trace
is exactly those probe events in order — but no rate-limiter `wait` event
ever occurs: the module-level `test_api_keys` that `main` calls never
touches the rate limiter. -/
theorem tapik_C1_no_wait (outcome : Str → Bool → ℤ → ProbeOutcome) (api_keys : List Str)
    (verbose : Bool) (sel : Option Str) (selected : List ℤ)
    (h : parse_api_selection sel = .ok selected) :
    traceOf (test_api_keys outcome api_keys verbose sel) =
      api_keys.flatMap (fun k => specProbeEvents k selected) ∧
    Event.wait ∉ traceOf (test_api_keys outcome api_keys verbose sel) := by
  have htr : traceOf (test_api_keys outcome api_keys verbose sel) =
      api_keys.flatMap (fun k => specProbeEvents k selected) := by
    simp only [test_api_keys, h, traceOf]
    rw [run_keys_trace outcome verbose selected api_keys [] []]
    simp
  refine ⟨htr, ?_⟩
  rw [htr]
  intro hc
  rw [List.mem_flatMap] at hc
  obtain ⟨k, _, hk⟩ := hc
  exact wait_not_mem_specProbeEvents k selected hk

/-- Witness for the amended C1 at one key and selection `"1,7"`. -/
theorem tapik_C1_no_wait_wit :
    parse_api_selection (some ("1,7".toList)) = .ok [1, 7] ∧
    (traceOf (test_api_keys (fun _ _ _ => ProbeOutcome.ok workedStr) [("AIza".toList)] false
        (some ("1,7".toList))) =
      ([("AIza".toList)]).flatMap (fun k => specProbeEvents k [1, 7]) ∧
    Event.wait ∉ traceOf (test_api_keys (fun _ _ _ => ProbeOutcome.ok workedStr)
      [("AIza".toList)] false (some ("1,7".toList)))) :=
  ⟨by rfl, tapik_C1_no_wait (fun _ _ _ => ProbeOutcome.ok workedStr) [("AIza".toList)] false
    (some ("1,7".toList)) [1, 7] (by rfl)⟩

/-- Claim C7: with an output path configured, the written object has
exactly one top-level entry per tested key (in input order, keys assumed
distinct), whose entry maps the display name of each successful probe
(resolved, no exception, result not in the denial list) to the literal
`"Success"`, with no entry for denied or failed probes and an empty object
for a key with zero successes. -/
theorem tapik_C7_output (outcome : Str → Bool → ℤ → ProbeOutcome) (api_keys : List Str)
    (verbose : Bool) (sel : Option Str) (selected : List ℤ)
    (h1 : parse_api_selection sel = .ok selected) (h2 : api_keys.Nodup) :
    savedOf (test_api_keys outcome api_keys verbose sel) =
      some (api_keys.map (fun k =>
        (k, (specEntry outcome verbose selected k).map (fun q => (q.1, successStr))))) := by
  simp only [test_api_keys, h1, savedOf]
  rw [run_keys_dict outcome verbose selected (namesOf_nodup (parse_ok_nodup h1))
    api_keys [] [] h2 (fun k _ => rfl)]
  simp [save_results_to_file]

/-- Witness for C7: two keys over selection `"1-3"`; key `"A"` has one
success (id 1), a denial (id 2) and an exception (id 3); key `"B"` has no
success, so its saved entry is the empty object. -/
theorem tapik_C7_output_wit :
    parse_api_selection (some ("1-3".toList)) = .ok [1, 2, 3] ∧
    ([("A".toList), ("B".toList)] : List Str).Nodup ∧
    savedOf (test_api_keys
        (fun k _ n =>
          if n = 1 && k = ("A".toList) then ProbeOutcome.ok ("yay".toList)
          else if n = 2 then ProbeOutcome.ok requestDeniedStr
          else ProbeOutcome.exn)
        [("A".toList), ("B".toList)] false (some ("1-3".toList))) =
      some ([("A".toList), ("B".toList)].map (fun k =>
        (k, (specEntry
          (fun k _ n =>
            if n = 1 && k = ("A".toList) then ProbeOutcome.ok ("yay".toList)
            else if n = 2 then ProbeOutcome.ok requestDeniedStr
            else ProbeOutcome.exn)
          false [1, 2, 3] k).map (fun q => (q.1, successStr))))) :=
  ⟨by rfl, by decide,
    tapik_C7_output
      (fun k _ n =>
        if n = 1 && k = ("A".toList) then ProbeOutcome.ok ("yay".toList)
        else if n = 2 then ProbeOutcome.ok requestDeniedStr
        else ProbeOutcome.exn)
      [("A".toList), ("B".toList)] false (some ("1-3".toList)) [1, 2, 3] (by rfl) (by decide)⟩

/-- Counterexample to claim C2 as stated: the claim's enumeration puts
`UNAUTHENTICATED` before `ADMIN_ONLY_OPERATION`, but on a body containing
both markers the classifier returns `ADMIN_ONLY_OPERATION` — the code's
scan list starts with `ADMIN_ONLY_OPERATION`, not with
`UNAUTHENTICATED`. -/
theorem tapik_C2_cex :
    process_response ⟨200, ("ADMIN_ONLY_OPERATION UNAUTHENTICATED".toList), none, none, []⟩
      false = adminOnlyStr ∧
    containsSub unauthenticatedStr
      (pyUpper ("ADMIN_ONLY_OPERATION UNAUTHENTICATED".toList)) = true ∧
    adminOnlyStr ≠ unauthenticatedStr := by
  refine ⟨by decide, by decide, by decide⟩

/-- Claim C2, amended: for bodies that do not match the anti-abuse page
check, the classifier scans the uppercased body for the denial markers in
the code's fixed order `ADMIN_ONLY_OPERATION, UNAUTHENTICATED,
PERMISSION_DENIED, INVALID_ARGUMENT, REQUEST_DENIED, REJECTED, BLOCKED,
BAD REQUEST, INSUFFICIENTFILEPERMISSIONS` and returns the first marker
found in that order: the returned marker occurs in the body and every
marker that precedes it in this enumeration does not. -/
theorem tapik_C2_scan_order (r : PyResponse) (v : Bool) (m : Str)
    (h1 : (containsSub htmlTagStr r.text && containsSub blockedPageStr r.text) = false)
    (h2 : List.find? (fun x => containsSub x (pyUpper r.text)) error_messages = some m) :
    process_response r v = m ∧ m ∈ error_messages ∧
    containsSub m (pyUpper r.text) = true ∧ noEarlierMatch (pyUpper r.text) m = true := by
  obtain ⟨hm, hpm, hall⟩ := find?_first (fun x => containsSub x (pyUpper r.text))
    error_messages m h2
  refine ⟨?_, hm, hpm, hall⟩
  simp [process_response, h1, h2]

/-- Witness for the amended C2 on a lower-case body containing both
`rejected` and `blocked`: the scan returns `REJECTED`, the earlier of the
two in the code's order. -/
theorem tapik_C2_scan_order_wit :
    (containsSub htmlTagStr ("some rejected and blocked text".toList) &&
      containsSub blockedPageStr ("some rejected and blocked text".toList)) = false ∧
    List.find? (fun x => containsSub x (pyUpper ("some rejected and blocked text".toList)))
      error_messages = some rejectedStr ∧
    (process_response ⟨200, ("some rejected and blocked text".toList), none, none, []⟩ false =
        rejectedStr ∧
      rejectedStr ∈ error_messages ∧
      containsSub rejectedStr (pyUpper ("some rejected and blocked text".toList)) = true ∧
      noEarlierMatch (pyUpper ("some rejected and blocked text".toList)) rejectedStr = true) :=
  ⟨by decide, by decide,
    tapik_C2_scan_order ⟨200, ("some rejected and blocked text".toList), none, none, []⟩
      false rejectedStr (by decide) (by decide)⟩

/-- Counterexample to claim C5 as stated: a body containing
`PERMISSION_DENIED` does not always classify as `PERMISSION_DENIED` — if
it also contains `UNAUTHENTICATED` (scanned earlier), the verdict is
`UNAUTHENTICATED`. -/
theorem tapik_C5_cex :
    containsSub permissionDeniedStr
      (pyUpper ("UNAUTHENTICATED PERMISSION_DENIED".toList)) = true ∧
    process_response ⟨200, ("UNAUTHENTICATED PERMISSION_DENIED".toList), none, none, []⟩
      false = unauthenticatedStr ∧
    unauthenticatedStr ≠ permissionDeniedStr := by
  refine ⟨by decide, by decide, by decide⟩

/-- Claim C5, amended: for every response whose body (case-insensitively)
contains `PERMISSION_DENIED`, does not match the anti-abuse page check,
and contains neither of the two markers scanned earlier
(`ADMIN_ONLY_OPERATION`, `UNAUTHENTICATED`), the verdict is
`PERMISSION_DENIED`, regardless of the status code. -/
theorem tapik_C5_permission_denied (r : PyResponse) (v : Bool)
    (h1 : (containsSub htmlTagStr r.text && containsSub blockedPageStr r.text) = false)
    (h2 : containsSub permissionDeniedStr (pyUpper r.text) = true)
    (h3 : containsSub adminOnlyStr (pyUpper r.text) = false)
    (h4 : containsSub unauthenticatedStr (pyUpper r.text) = false) :
    process_response r v = permissionDeniedStr := by
  simp [process_response, error_messages, List.find?, h1, h2, h3, h4]

/-- Witness for the amended C5 at status 403 and a lower-case body. -/
theorem tapik_C5_permission_denied_wit :
    (containsSub htmlTagStr ("xx permission_denied yy".toList) &&
      containsSub blockedPageStr ("xx permission_denied yy".toList)) = false ∧
    containsSub permissionDeniedStr (pyUpper ("xx permission_denied yy".toList)) = true ∧
    containsSub adminOnlyStr (pyUpper ("xx permission_denied yy".toList)) = false ∧
    containsSub unauthenticatedStr (pyUpper ("xx permission_denied yy".toList)) = false ∧
    process_response ⟨403, ("xx permission_denied yy".toList), none, none, []⟩ true =
      permissionDeniedStr :=
  ⟨by decide, by decide, by decide, by decide,
    tapik_C5_permission_denied ⟨403, ("xx permission_denied yy".toList), none, none, []⟩
      true (by decide) (by decide) (by decide) (by decide)⟩

/-- Counterexample to claim C3 as stated: the `KeyboardInterrupt` handler
of `main` calls `exit(0)` — the explicit exit code on interrupt is 0, not
a non-zero-equivalent code, and it is not distinct from the exit code of
normal completion. -/
theorem tapik_C3_cex :
    main_exit_code MainOutcome.interrupted = 0 ∧
    main_exit_code MainOutcome.completed = 0 := by
  exact ⟨rfl, rfl⟩

/-- Claim C3, amended: on `KeyboardInterrupt`, `main` prints the one-line
notice `"[!] Exiting..."` (a leading newline, then a single line with no
further newline) and exits with the explicit code 0 — the same status as
normal completion, not a distinct non-zero one. -/
theorem tapik_C3_exit :
    main_exit_code MainOutcome.interrupted = main_exit_code MainOutcome.completed ∧
    main_exit_code MainOutcome.interrupted = 0 ∧
    interruptNotice ≠ [] ∧
    Char.ofNat 10 ∉ interruptNotice.drop 1 := by
  refine ⟨rfl, rfl, by decide, by decide⟩

/-- Counterexample to claim C6 as stated: with the verbosity flag off, an
`image/png` response whose bytes happen to contain a denial marker is NOT
classified as success — the StaticMap probe only short-circuits on
`image/` content types when verbose is on, otherwise it falls through to
the body classifier, which here returns `REQUEST_DENIED`, a member of the
denial list, so the orchestrator reports failure. -/
theorem tapik_C6_cex :
    test_google_maps_api_Staticmap
      (fun u => ⟨200, requestDeniedStr, none, some ("image/png".toList), u⟩)
      ("K".toList) false = some requestDeniedStr ∧
    requestDeniedStr ∈ ApiTester.ERROR_MESSAGES := by
  refine ⟨by decide, by decide⟩

/-- Claim C6, amended: for the StaticMap and StreetView probes, whenever
the `Content-Type` begins with `image/` AND the verbosity flag is on, the
returned payload is the string `"[!] Image URL: "` followed by the
resolved request URL — which, absent redirects, is the fixed probe URL
beginning with the host `https://maps.googleapis.com/` — rather than the
binary body; with verbosity off the image response falls through to the
ordinary body classifier. -/
theorem tapik_C6_image (http : Str → PyResponse) (api_key : Str) (ct1 ct2 : Str)
    (h1 : (http (staticmapStem ++ api_key)).contentType = some ct1)
    (h2 : imageSlashStr.isPrefixOf ct1 = true)
    (h3 : (http (staticmapStem ++ api_key)).url = staticmapStem ++ api_key)
    (h4 : (http (streetviewStem ++ api_key)).contentType = some ct2)
    (h5 : imageSlashStr.isPrefixOf ct2 = true)
    (h6 : (http (streetviewStem ++ api_key)).url = streetviewStem ++ api_key) :
    test_google_maps_api_Staticmap http api_key true =
      some (imageUrlTag ++ (staticmapStem ++ api_key)) ∧
    test_google_maps_api_Streetview http api_key true =
      some (imageUrlTag ++ (streetviewStem ++ api_key)) ∧
    mapsHostStr <+: staticmapStem ++ api_key ∧
    mapsHostStr <+: streetviewStem ++ api_key ∧
    test_google_maps_api_Staticmap http api_key false =
      some (process_response (http (staticmapStem ++ api_key)) false) ∧
    test_google_maps_api_Streetview http api_key false =
      some (process_response (http (streetviewStem ++ api_key)) false) := by
  have hsm : mapsHostStr <+: staticmapStem :=
    ⟨("maps/api/staticmap?center=45%2C10&zoom=7&size=400x400&key=".toList), by decide⟩
  have hsv : mapsHostStr <+: streetviewStem :=
    ⟨("maps/api/streetview?size=400x400&location=40.720032,-73.988354&fov=90&heading=235&pitch=10&key=".toList),
      by decide⟩
  refine ⟨?_, ?_, hsm.trans (List.prefix_append _ _), hsv.trans (List.prefix_append _ _), ?_, ?_⟩
  · simp [test_google_maps_api_Staticmap, h1, h2, h3]
  · simp [test_google_maps_api_Streetview, h4, h5, h6]
  · simp [test_google_maps_api_Staticmap, h1, h2]
  · simp [test_google_maps_api_Streetview, h4, h5]

/-- Witness for the amended C6: a transport answering every URL with an
`image/png` response echoing the requested URL back as the resolved
URL. -/
theorem tapik_C6_image_wit :
    ((fun u => (⟨200, ("img-bytes".toList), none, some ("image/png".toList), u⟩ : PyResponse))
        (staticmapStem ++ ("K".toList))).contentType = some ("image/png".toList) ∧
    imageSlashStr.isPrefixOf ("image/png".toList) = true ∧
    (test_google_maps_api_Staticmap
        (fun u => ⟨200, ("img-bytes".toList), none, some ("image/png".toList), u⟩)
        ("K".toList) true =
      some (imageUrlTag ++ (staticmapStem ++ ("K".toList))) ∧
    test_google_maps_api_Streetview
        (fun u => ⟨200, ("img-bytes".toList), none, some ("image/png".toList), u⟩)
        ("K".toList) true =
      some (imageUrlTag ++ (streetviewStem ++ ("K".toList))) ∧
    mapsHostStr <+: staticmapStem ++ ("K".toList) ∧
    mapsHostStr <+: streetviewStem ++ ("K".toList) ∧
    test_google_maps_api_Staticmap
        (fun u => ⟨200, ("img-bytes".toList), none, some ("image/png".toList), u⟩)
        ("K".toList) false =
      some (process_response
        ((fun u => (⟨200, ("img-bytes".toList), none, some ("image/png".toList), u⟩ : PyResponse))
          (staticmapStem ++ ("K".toList))) false) ∧
    test_google_maps_api_Streetview
        (fun u => ⟨200, ("img-bytes".toList), none, some ("image/png".toList), u⟩)
        ("K".toList) false =
      some (process_response
        ((fun u => (⟨200, ("img-bytes".toList), none, some ("image/png".toList), u⟩ : PyResponse))
          (streetviewStem ++ ("K".toList))) false)) :=
  ⟨rfl, by decide,
    tapik_C6_image
      (fun u => ⟨200, ("img-bytes".toList), none, some ("image/png".toList), u⟩)
      ("K".toList) ("image/png".toList) ("image/png".toList)
      rfl (by decide) rfl rfl (by decide) rfl⟩

/-- Counterexample to claim C4 as stated: `wait()` does not block until
one more call would fit within the limit — with `calls = 2`,
`period = 10`, prior timestamps `[0, 5, 6]` and `now = 7`, it sleeps only
until the OLDEST retained timestamp leaves the window (3 time units), and
at the return time `7 + 3` the recorded list `[0, 5, 6, 7]` still has 3
calls strictly inside the trailing window — exceeding `calls = 2`. -/
theorem tapik_C4_cex :
    RateLimiter.wait 2 10 [0, 5, 6] 7 = some (3, [0, 5, 6, 7]) ∧
    2 < windowCountStrict [0, 5, 6, 7] (7 + 3) 10 := by
  constructor
  · have hpr : RateLimiter.prune 10 [0, 5, 6] 7 = [0, 5, 6] := by
      simp only [RateLimiter.prune, List.filter]
      norm_num
    simp only [RateLimiter.wait, hpr]
    norm_num
  · simp only [windowCountStrict, List.filter]
    norm_num

/-- Claim C4, amended: for every limiter state (any timestamp list, any
current time) with `calls ≥ 1`, `wait()` prunes to the timestamps within
the trailing window, sleeps exactly `max(oldest_retained + period - now,
0)` when the retained count has reached `calls` (i.e. only until the
oldest retained timestamp leaves the window — not until one more call
would fit) and does not sleep otherwise; a negative or zero computed sleep
is a no-op (the slept duration is never negative), and the pre-sleep `now`
is then appended to the record. -/
theorem tapik_C4_wait (calls : ℕ) (period : ℚ) (ts : List ℚ) (now : ℚ) (h : 1 ≤ calls) :
    RateLimiter.wait calls period ts now =
      some (RateLimiter.sleepSpec calls period ts now,
        RateLimiter.prune period ts now ++ [now]) ∧
    0 ≤ RateLimiter.sleepSpec calls period ts now ∧
    ((RateLimiter.prune period ts now).length < calls →
      RateLimiter.sleepSpec calls period ts now = 0) ∧
    (calls ≤ (RateLimiter.prune period ts now).length →
      now + RateLimiter.sleepSpec calls period ts now =
        max ((RateLimiter.prune period ts now).headI + period) now) := by
  by_cases hc : calls ≤ (RateLimiter.prune period ts now).length
  · obtain ⟨t0, rest, hcons⟩ : ∃ t0 rest, RateLimiter.prune period ts now = t0 :: rest := by
      cases hpr : RateLimiter.prune period ts now with
      | nil => rw [hpr] at hc; simp at hc; omega
      | cons a b => exact ⟨a, b, rfl⟩
    have hmax : (if 0 < t0 + period - now then t0 + period - now else 0) =
        max (t0 + period - now) 0 := by
      rcases le_or_lt (t0 + period - now) 0 with hs | hs
      · rw [if_neg (not_lt.mpr hs), max_eq_right hs]
      · rw [if_pos hs, max_eq_left hs.le]
    have hspec : RateLimiter.sleepSpec calls period ts now = max (t0 + period - now) 0 := by
      simp only [RateLimiter.sleepSpec, hcons, if_pos (hcons ▸ hc)]
      simp
    have hwait : RateLimiter.wait calls period ts now =
        some (max (t0 + period - now) 0, (t0 :: rest) ++ [now]) := by
      simp only [RateLimiter.wait, hcons, if_pos (hcons ▸ hc), hmax]
    refine ⟨?_, ?_, ?_, ?_⟩
    · rw [hwait, hspec, hcons]
    · rw [hspec]; exact le_max_right _ _
    · intro hlt; omega
    · intro _
      rw [hspec, hcons]
      have e1 : now + (t0 + period - now) = t0 + period := by ring
      rw [← max_add_add_left, e1, add_zero]
      simp
  · have hwait : RateLimiter.wait calls period ts now =
        some (0, RateLimiter.prune period ts now ++ [now]) := by
      simp only [RateLimiter.wait, if_neg hc]
    have hspec : RateLimiter.sleepSpec calls period ts now = 0 := by
      simp only [RateLimiter.sleepSpec, if_neg hc]
    refine ⟨?_, ?_, ?_, ?_⟩
    · rw [hwait, hspec]
    · rw [hspec]
    · intro _; exact hspec
    · intro hge; exact absurd hge hc

/-- Witness for the amended C4 at the concrete state of the
counterexample (`calls = 2`, `period = 10`, timestamps `[0, 5, 6]`,
`now = 7`). -/
theorem tapik_C4_wait_wit :
    1 ≤ 2 ∧
    (RateLimiter.wait 2 10 [0, 5, 6] 7 =
      some (RateLimiter.sleepSpec 2 10 [0, 5, 6] 7,
        RateLimiter.prune 10 [0, 5, 6] 7 ++ [7]) ∧
    0 ≤ RateLimiter.sleepSpec 2 10 [0, 5, 6] 7 ∧
    ((RateLimiter.prune 10 [0, 5, 6] 7).length < 2 →
      RateLimiter.sleepSpec 2 10 [0, 5, 6] 7 = 0) ∧
    (2 ≤ (RateLimiter.prune 10 [0, 5, 6] 7).length →
      7 + RateLimiter.sleepSpec 2 10 [0, 5, 6] 7 =
        max ((RateLimiter.prune 10 [0, 5, 6] 7).headI + 10) 7)) :=
  ⟨by decide, tapik_C4_wait 2 10 [0, 5, 6] 7 (by decide)⟩
